import Mathlib

/-!
Verification development for the OPL PS2 import utility.

This file gives a shallow embedding, in Lean 4, of the core of the
repository: the game-ID resolver, the manifest store, the space
accountant and the import pipeline (files `app/services/game_service.py`,
`app/services/target_service.py`, `app/core/constants.py` and the
`import_iso` route of `app/api/routes.py`).  Pure Python functions become
Lean functions over `String` / `List Char` / `Nat`; Python exceptions
become `Except`; the file system visible to the import route becomes an
explicit state record.  Python floats (the 5% space buffer) are modelled
exactly, as IEEE-754 binexact arithmetic on scaled natural numbers.

Conventions:
* Python `str.strip` / `str.upper` / `str.lower` are modelled for ASCII
  text (all identifiers handled by the program are ASCII).
* `pathlib.PurePosixPath` name/stem/suffix semantics are reproduced,
  including the corner cases (`".iso"` has no suffix, `"a."` has no
  suffix, `".."` is its own name, `"."` and `""` have empty names).
-/

set_option maxRecDepth 4000

/-! ## ASCII character helpers -/

/-- Python whitespace stripped by `str.strip()` (ASCII subset); character
classes are stated on code points. -/
def isPySpace (c : Char) : Bool :=
  c.toNat = 32 || c.toNat = 9 || c.toNat = 10 || c.toNat = 13 || c.toNat = 11 || c.toNat = 12

def isAsciiUpper (c : Char) : Bool := 65 ≤ c.toNat && c.toNat ≤ 90

def isAsciiLower (c : Char) : Bool := 97 ≤ c.toNat && c.toNat ≤ 122

def isAsciiDigit (c : Char) : Bool := 48 ≤ c.toNat && c.toNat ≤ 57

def isAsciiAlpha (c : Char) : Bool := isAsciiUpper c || isAsciiLower c

/-- The character class `[A-Za-z0-9]` of the Python regexes. -/
def isAsciiAlnum (c : Char) : Bool := isAsciiAlpha c || isAsciiDigit c

def isUpperAlnum (c : Char) : Bool := isAsciiUpper c || isAsciiDigit c

def isLowerAlnum (c : Char) : Bool := isAsciiLower c || isAsciiDigit c

def asciiUpperChar (c : Char) : Char :=
  if isAsciiLower c then Char.ofNat (c.toNat - 32) else c

def asciiLowerChar (c : Char) : Char :=
  if isAsciiUpper c then Char.ofNat (c.toNat + 32) else c

/-! ## Python string primitives -/

def pyStripList (l : List Char) : List Char :=
  ((l.dropWhile isPySpace).reverse.dropWhile isPySpace).reverse

/-- Python `str.strip()` (ASCII whitespace). -/
def pyStrip (s : String) : String := ⟨pyStripList s.data⟩

/-- Python `str.upper()` (ASCII). -/
def pyUpper (s : String) : String := ⟨s.data.map asciiUpperChar⟩

/-- Python `str.lower()` (ASCII). -/
def pyLower (s : String) : String := ⟨s.data.map asciiLowerChar⟩

/-- Boolean string-begins-with test, used to model Python `str.startswith`. -/
def strStartsWith (p s : String) : Bool := s.data.take p.data.length = p.data

/-! ## `pathlib` name / stem / suffix -/

/-- Split a character list at `'/'` separators. -/
def splitSlash : List Char → List (List Char)
  | [] => [[]]
  | c :: rest =>
    if c = '/' then [] :: splitSlash rest
    else
      match splitSlash rest with
      | [] => [[c]]
      | g :: gs => (c :: g) :: gs

/-- Python `PurePosixPath(s).name`: the last path component, with empty
components and `"."` components dropped (trailing slashes ignored). -/
def pyPathName (s : String) : String :=
  let comps := (splitSlash s.data).filter (fun c => ¬(c = [] ∨ c = ['.']))
  ⟨comps.getLastD []⟩

/-- Split a `pathlib` file name into `(stem, suffix)`: the suffix starts at
the last dot provided that dot is neither the first nor the last character. -/
def pySplitStemSuffix (name : List Char) : List Char × List Char :=
  if name.contains '.' then
    let j := (name.reverse.takeWhile (fun c => c ≠ '.')).length
    let i := name.length - 1 - j
    if 1 ≤ i ∧ 1 ≤ j then (name.take i, name.drop i) else (name, [])
  else (name, [])

/-- Python `PurePosixPath(s).suffix`. -/
def pyPathSuffix (s : String) : String := ⟨(pySplitStemSuffix (pyPathName s).data).2⟩

/-- Python `PurePosixPath(s).stem`. -/
def pyPathStem (s : String) : String := ⟨(pySplitStemSuffix (pyPathName s).data).1⟩

/-! ## Canonical game-ID pattern -/

/-- Exact match of the canonical pattern `[A-Z]{4}_[0-9]{3}\.[0-9]{2}`
(`re.fullmatch` in `normalize_game_id`). -/
def isCanonicalId (s : String) : Bool :=
  match s.data with
  | [c0, c1, c2, c3, c4, c5, c6, c7, c8, c9, c10] =>
    isAsciiUpper c0 && isAsciiUpper c1 && isAsciiUpper c2 && isAsciiUpper c3 &&
    c4 = '_' && isAsciiDigit c5 && isAsciiDigit c6 && isAsciiDigit c7 &&
    c8 = '.' && isAsciiDigit c9 && isAsciiDigit c10
  | _ => false

/-- The relaxed shape actually guaranteed by `generate_game_id`:
`[A-Z0-9]{4}_[0-9]{3}\.[0-9]{2}` (the prefix may contain digits). -/
def isGeneratedShapeId (s : String) : Bool :=
  match s.data with
  | [c0, c1, c2, c3, c4, c5, c6, c7, c8, c9, c10] =>
    isUpperAlnum c0 && isUpperAlnum c1 && isUpperAlnum c2 && isUpperAlnum c3 &&
    c4 = '_' && isAsciiDigit c5 && isAsciiDigit c6 && isAsciiDigit c7 &&
    c8 = '.' && isAsciiDigit c9 && isAsciiDigit c10
  | _ => false

/-- `game_service.normalize_game_id`: strip, uppercase, then reject unless
the result matches the canonical pattern exactly (`ValueError` becomes
`Except.error`). -/
def normalize_game_id (game_id : String) : Except String String :=
  let normalized := pyUpper (pyStrip game_id)
  if isCanonicalId normalized then .ok normalized
  else .error "game_id must match pattern like SLUS_209.46"

example : normalize_game_id "SLUS_209.46" = .ok "SLUS_209.46" := rfl

example : normalize_game_id " slus_209.46 " = .ok "SLUS_209.46" := rfl

example : (normalize_game_id "SLUS209.46").isOk = false := by decide

/-! ## SHA-1 (model of `hashlib.sha1(...).hexdigest()`)

`generate_game_id` derives its numeric suffix from the first five hex
digits of the SHA-1 digest of the seed.  The algorithm (FIPS 180-4) is
implemented here over `Nat` with explicit `% 2^32` reductions; recursion
is fuel-based so every definition reduces in the kernel. -/

/-- UTF-8 encoding of one code point. -/
def utf8Enc (c : Nat) : List Nat :=
  if c < 128 then [c]
  else if c < 2048 then [192 + c / 64, 128 + c % 64]
  else if c < 65536 then [224 + c / 4096, 128 + c / 64 % 64, 128 + c % 64]
  else [240 + c / 262144, 128 + c / 4096 % 64, 128 + c / 64 % 64, 128 + c % 64]

/-- UTF-8 bytes of a string (model of Python `str.encode("utf-8")`). -/
def strBytes (s : String) : List Nat := (s.data.map (fun c => utf8Enc c.toNat)).flatten

/-- Big-endian 8-byte encoding of a (bit-length) value. -/
def beBytes8 (v : Nat) : List Nat :=
  [v / 2 ^ 56 % 256, v / 2 ^ 48 % 256, v / 2 ^ 40 % 256, v / 2 ^ 32 % 256,
   v / 2 ^ 24 % 256, v / 2 ^ 16 % 256, v / 2 ^ 8 % 256, v % 256]

/-- SHA-1 message padding: append `0x80`, zero bytes up to 56 mod 64, then
the 64-bit big-endian message bit length. -/
def sha1Pad (msg : List Nat) : List Nat :=
  let len := msg.length
  let zeros := (119 - len % 64) % 64
  msg ++ 128 :: List.replicate zeros 0 ++ beBytes8 (len * 8)

/-- Split a byte list into 64-byte chunks (fuel-based for kernel reduction). -/
def chunk64 : Nat → List Nat → List (List Nat)
  | 0, _ => []
  | _, [] => []
  | fuel + 1, l => l.take 64 :: chunk64 fuel (l.drop 64)

/-- Big-endian 32-bit words of a byte list. -/
def beWords : List Nat → List Nat
  | b0 :: b1 :: b2 :: b3 :: rest => (((b0 * 256 + b1) * 256 + b2) * 256 + b3) :: beWords rest
  | _ => []

/-- Left rotation of a 32-bit word (input `< 2^32`). -/
def rotl (k x : Nat) : Nat := (x * 2 ^ k) % 4294967296 + x / 2 ^ (32 - k)

/-- SHA-1 message-schedule extension from 16 to 80 words. -/
def sha1Extend : Nat → List Nat → List Nat
  | 0, w => w
  | fuel + 1, w =>
    let t := w.length
    let x := ((w.getD (t - 3) 0).xor ((w.getD (t - 8) 0).xor
              ((w.getD (t - 14) 0).xor (w.getD (t - 16) 0))))
    sha1Extend fuel (w ++ [rotl 1 x])

/-- SHA-1 round function. -/
def sha1F (t b c d : Nat) : Nat :=
  if t < 20 then (b.land c).lor ((b.xor 4294967295).land d)
  else if t < 40 then (b.xor c).xor d
  else if t < 60 then ((b.land c).lor (b.land d)).lor (c.land d)
  else (b.xor c).xor d

/-- SHA-1 round constants. -/
def sha1K (t : Nat) : Nat :=
  if t < 20 then 1518500249
  else if t < 40 then 1859775393
  else if t < 60 then 2400959708
  else 3395469782

/-- One SHA-1 block compression. -/
def sha1Block (h : Nat × Nat × Nat × Nat × Nat) (block : List Nat) :
    Nat × Nat × Nat × Nat × Nat :=
  let w := sha1Extend 64 (beWords block)
  let (h0, h1, h2, h3, h4) := h
  let final := (List.range 80).foldl
    (fun s t =>
      let (a, b, c, d, e) := s
      let tmp := (rotl 5 a + sha1F t b c d + e + sha1K t + w.getD t 0) % 4294967296
      (tmp, a, rotl 30 b, c, d))
    (h0, h1, h2, h3, h4)
  let (a, b, c, d, e) := final
  ((h0 + a) % 4294967296, (h1 + b) % 4294967296, (h2 + c) % 4294967296,
   (h3 + d) % 4294967296, (h4 + e) % 4294967296)

/-- Lowercase hex digit. -/
def hexChar (n : Nat) : Char := if n < 10 then Char.ofNat (48 + n) else Char.ofNat (87 + n)

/-- Eight lowercase hex digits of a 32-bit word. -/
def word8hex (v : Nat) : List Char :=
  [hexChar (v / 16 ^ 7 % 16), hexChar (v / 16 ^ 6 % 16), hexChar (v / 16 ^ 5 % 16),
   hexChar (v / 16 ^ 4 % 16), hexChar (v / 16 ^ 3 % 16), hexChar (v / 16 ^ 2 % 16),
   hexChar (v / 16 % 16), hexChar (v % 16)]

/-- SHA-1 hex digest of a byte list. -/
def sha1hexBytes (msg : List Nat) : String :=
  let padded := sha1Pad msg
  let (h0, h1, h2, h3, h4) := (chunk64 padded.length padded).foldl
    (fun h b => sha1Block h b)
    (1732584193, 4023233417, 2562383102, 271733878, 3285377520)
  ⟨word8hex h0 ++ word8hex h1 ++ word8hex h2 ++ word8hex h3 ++ word8hex h4⟩

/-- Model of Python `hashlib.sha1(s.encode("utf-8")).hexdigest()`. -/
def sha1hex (s : String) : String := sha1hexBytes (strBytes s)

/-- Value of a lowercase hex digit. -/
def hexVal (c : Char) : Nat := if isAsciiDigit c then c.toNat - 48 else c.toNat - 87

/-- Model of Python `int(hexstring, 16)` for lowercase hex input. -/
def parseHex (l : List Char) : Nat := l.foldl (fun acc c => acc * 16 + hexVal c) 0

theorem sha1hex_abc : sha1hex "abc" = "a9993e364706816aba3e25717850c26c9cd0d89d" := by rfl

theorem sha1hex_empty : sha1hex "" = "da39a3ee5e6b4b0d3255bfef95601890afd80709" := by rfl

/-! ## Game-ID generation and resolution (`game_service.py`) -/

/-- Decimal digit character. -/
def digitChar (n : Nat) : Char := Char.ofNat (48 + n)

/-- Python `f"{m:03d}"` for `m ≤ 999` (the only values this program formats:
`m = number // 100` with `number < 100000`). -/
def pad3 (m : Nat) : String :=
  ⟨[digitChar (m / 100 % 10), digitChar (m / 10 % 10), digitChar (m % 10)]⟩

/-- Python `f"{m:02d}"` for `m ≤ 99` (here `m = number % 100`). -/
def pad2 (m : Nat) : String := ⟨[digitChar (m / 10 % 10), digitChar (m % 10)]⟩

/-- `game_service.generate_game_id`: strip non-alphanumerics from the seed,
uppercase, pad with `"AUTO"` if shorter than 4, take a 4-character prefix,
and append `NNN.NN` derived from the first five hex digits of the seed's
SHA-1 digest modulo 100000. -/
def generate_game_id (seed : String) : String :=
  let cleaned0 : List Char := (seed.data.filter isAsciiAlnum).map asciiUpperChar
  let cleaned : List Char :=
    if cleaned0.length < 4 then (cleaned0 ++ ['A', 'U', 'T', 'O']).take 4 else cleaned0
  let pref : List Char := cleaned.take 4
  let number : Nat := parseHex ((sha1hex seed).data.take 5) % 100000
  ⟨pref⟩ ++ "_" ++ pad3 (number / 100) ++ "." ++ pad2 (number % 100)

theorem generate_game_id_Game : generate_game_id "Game" = "GAME_335.06" := by rfl

/-- The generation fallback of `resolve_game_id`: the stripped seed, or
`"AUTO_GAME"` when it strips to empty, fed to `generate_game_id`. -/
def generatedFor (seed : String) : String :=
  generate_game_id (if pyStrip seed = "" then "AUTO_GAME" else pyStrip seed)

/-- `game_service.resolve_game_id`: an explicitly supplied non-blank ID is
normalized (possibly raising); otherwise an ID is generated from the seed. -/
def resolve_game_id (game_id : Option String) (seed : Option String) :
    Except String (String × Bool) :=
  match game_id with
  | some g =>
    if g ≠ "" ∧ pyStrip g ≠ "" then (normalize_game_id g).map (fun n => (n, false))
    else .ok (generatedFor (seed.getD ""), true)
  | none => .ok (generatedFor (seed.getD ""), true)

/-- Separator class `[._\-\s]` of `extract_game_id_from_filename`. -/
def isIdSep (c : Char) : Bool := c = '.' || c = '_' || c = '-' || isPySpace c

/-- `game_service.extract_game_id_from_filename`: if the upper-cased base
name begins with the canonical 11-character ID followed by a separator,
return that ID. -/
def extract_game_id_from_filename (source_filename : Option String) : Option String :=
  match source_filename with
  | none => none
  | some sf =>
    if sf = "" then none
    else
      match ((pyPathName sf).data.map asciiUpperChar) with
      | c0 :: c1 :: c2 :: c3 :: c4 :: c5 :: c6 :: c7 :: c8 :: c9 :: c10 :: c11 :: _ =>
        if (isAsciiUpper c0 && isAsciiUpper c1 && isAsciiUpper c2 && isAsciiUpper c3 &&
            c4 = '_' && isAsciiDigit c5 && isAsciiDigit c6 && isAsciiDigit c7 &&
            c8 = '.' && isAsciiDigit c9 && isAsciiDigit c10 && isIdSep c11) then
          some ⟨[c0, c1, c2, c3, c4, c5, c6, c7, c8, c9, c10]⟩
        else none
      | _ => none

example : extract_game_id_from_filename (some "SLUS_209.46_Game.iso") = some "SLUS_209.46" := by
  rfl

example : extract_game_id_from_filename (some "SLUS_209.46") = none := by rfl

/-- Separator class `[_\-\s.]` dropped after a leading ID in
`derive_game_name`. -/
def isNameSep (c : Char) : Bool := c = '_' || c = '-' || c = '.' || isPySpace c

/-- Separator class `[_\-.]` collapsed to single spaces in
`derive_game_name`. -/
def isCollapseSep (c : Char) : Bool := c = '_' || c = '-' || c = '.'

/-- Case-insensitive match of a leading canonical ID
(`^[A-Z]{4}_[0-9]{3}\.[0-9]{2}` with `re.IGNORECASE`); returns the rest. -/
def matchIdAtStart (l : List Char) : Option (List Char) :=
  match l with
  | c0 :: c1 :: c2 :: c3 :: c4 :: c5 :: c6 :: c7 :: c8 :: c9 :: c10 :: rest =>
    if (isAsciiAlpha c0 && isAsciiAlpha c1 && isAsciiAlpha c2 && isAsciiAlpha c3 &&
        c4 = '_' && isAsciiDigit c5 && isAsciiDigit c6 && isAsciiDigit c7 &&
        c8 = '.' && isAsciiDigit c9 && isAsciiDigit c10) then some rest
    else none
  | _ => none

/-- `re.sub(r"^[A-Z]{4}_[0-9]{3}\.[0-9]{2}[_\-\s.]*", "", stem, re.IGNORECASE)`. -/
def stripIdAtStart (l : List Char) : List Char :=
  match matchIdAtStart l with
  | some rest => rest.dropWhile isNameSep
  | none => l

/-- `re.sub(r"[_\-.]+", " ", stem)`: each maximal separator run becomes one
space (fuel-based recursion). -/
def collapseSepsF : Nat → List Char → List Char
  | 0, _ => []
  | _, [] => []
  | fuel + 1, c :: rest =>
    if isCollapseSep c then ' ' :: collapseSepsF fuel (rest.dropWhile isCollapseSep)
    else c :: collapseSepsF fuel rest

def collapseSeps (l : List Char) : List Char := collapseSepsF l.length l

/-- `game_service.derive_game_name`: prefer an explicit name; otherwise take
the filename stem, drop a leading canonical-ID prefix and its separators,
collapse the remaining separators to spaces and strip; error if empty. -/
def derive_game_name (game_name : Option String) (source_filename : Option String) :
    Except String String :=
  match game_name with
  | some g =>
    if pyStrip g ≠ "" ∧ g ≠ "" then .ok (pyStrip g) else derive_game_name_from_file source_filename
  | none => derive_game_name_from_file source_filename
where
  derive_game_name_from_file (source_filename : Option String) : Except String String :=
    match source_filename with
    | none => .error "game_name or source_filename is required"
    | some sf =>
      if sf = "" ∨ pyStrip sf = "" then .error "game_name or source_filename is required"
      else
        let stem := (pyPathStem (pyStrip sf)).data
        let stem2 := pyStripList (collapseSeps (stripIdAtStart stem))
        if stem2 = [] then .error "could not derive game name from source filename"
        else .ok ⟨stem2⟩

example : derive_game_name none (some "SLUS_209.46_Game.iso") = .ok "Game" := by rfl

example : derive_game_name none (some "Final-Fantasy_X.iso") = .ok "Final Fantasy X" := by rfl

example : (derive_game_name none (some "SLUS_209.46.iso")).isOk = false := by rfl

/-! ## Space accountant (`target_service.compute_buffer`, `constants.py`)

`compute_buffer` computes `max(int(total_iso_bytes * 0.05),
SPACE_BUFFER_MIN_BYTES)` in Python, where `total_iso_bytes * 0.05` is
IEEE-754 double arithmetic: the integer is converted to the nearest
double, multiplied by the double literal `0.05` (whose exact value is
`3602879701896397 / 2^56`), rounded to nearest-even, and truncated by
`int`.  Because every double is a dyadic rational, this is modelled
exactly on `Nat`: `rn53` rounds an integer numerator to 53 significant
bits (round half to even), which commutes with the power-of-two scaling.
The model is exact for the whole finite normal range of doubles (inputs
below `2^1024`), which covers every statement below. -/

/-- `constants.CD_THRESHOLD_BYTES = 700 * 1024 * 1024`. -/
def CD_THRESHOLD_BYTES : Nat := 700 * 1024 * 1024

/-- `constants.SPACE_BUFFER_MIN_BYTES = 500 * 1024 * 1024`. -/
def SPACE_BUFFER_MIN_BYTES : Nat := 500 * 1024 * 1024

/-- Numerator of the double literal `0.05` at scale `2^56`
(`0.05 = 3602879701896397 / 2^56` exactly, in IEEE-754 binary64). -/
def ratioNum05 : Nat := 3602879701896397

/-- Number of binary digits of `n` (fuel-based `bit_length`). -/
def bitlenF : Nat → Nat → Nat
  | 0, _ => 0
  | fuel + 1, n => if n = 0 then 0 else bitlenF fuel (n / 2) + 1

def bitlen (n : Nat) : Nat := bitlenF n n

/-- Round `a / d` to the nearest integer, ties to even (`d > 0`). -/
def rhe (a d : Nat) : Nat :=
  if 2 * (a % d) < d then a / d
  else if d < 2 * (a % d) then a / d + 1
  else if a / d % 2 = 0 then a / d else a / d + 1

/-- Round the integer `n` to 53 significant bits, half to even: the exact
numerator of the IEEE-754 binary64 value nearest to `n` (normal range). -/
def rn53 (n : Nat) : Nat :=
  if bitlen n ≤ 53 then n
  else rhe n (2 ^ (bitlen n - 53)) * 2 ^ (bitlen n - 53)

/-- Exact value of Python `int(n * 0.05)` for a nonnegative int `n`:
round `n` to a double, multiply by the double `0.05`, round the product
to a double, truncate. -/
def intTimes05 (n : Nat) : Nat := rn53 (rn53 n * ratioNum05) / 2 ^ 56

/-- `target_service.compute_buffer`:
`max(int(total_iso_bytes * SPACE_BUFFER_RATIO), SPACE_BUFFER_MIN_BYTES)`. -/
def compute_buffer (total_iso_bytes : Nat) : Nat :=
  max (intTimes05 total_iso_bytes) SPACE_BUFFER_MIN_BYTES

example : compute_buffer 0 = 524288000 := by decide

example : compute_buffer 21474836480 = 1073741824 := by decide

example : compute_buffer 629145600 = 524288000 := by decide

example : intTimes05 576460752303423488 = 28823037615171176 := by decide

/-! ## Manifest store (`game_service.py`)

The manifest is a JSON document; entries are arbitrary JSON values (the
code skips non-dict entries).  JSON is modelled by an inductive; a read
of the manifest file is modelled by `FileRead`, covering a missing file,
an unreadable file, invalid JSON, and a parsed document. -/

inductive Json where
  | null : Json
  | bool : Bool → Json
  | num : Int → Json
  | str : String → Json
  | arr : List Json → Json
  | obj : List (String × Json) → Json

/-- Result of trying to read the manifest file. -/
inductive FileRead where
  | missing : FileRead
  | unreadable : FileRead
  | parseError : FileRead
  | ok : Json → FileRead

/-- First value bound to a key in a JSON object (Python `dict.get`). -/
def jget : List (String × Json) → String → Option Json
  | [], _ => none
  | (k, v) :: rest, key => if k = key then some v else jget rest key

/-- `dict.get` restricted to string values (`None` for absent or non-string). -/
def jgetStr (fields : List (String × Json)) (key : String) : Option String :=
  match jget fields key with
  | some (.str s) => some s
  | _ => none

/-- A manifest as held in memory: `{"entries": [...]}`. -/
structure Manifest where
  entries : List Json

/-- `game_service.load_manifest`: a missing, unreadable or unparsable file,
a non-object document, or a non-list `"entries"` field all yield the empty
manifest; nothing raises. -/
def load_manifest (file : FileRead) : Manifest :=
  match file with
  | .missing => ⟨[]⟩
  | .unreadable => ⟨[]⟩
  | .parseError => ⟨[]⟩
  | .ok j =>
    match j with
    | .obj fields =>
      match jget fields "entries" with
      | some (.arr xs) => ⟨xs⟩
      | some _ => ⟨[]⟩
      | none => ⟨[]⟩
    | _ => ⟨[]⟩

/-- The argument bundle of `upsert_manifest_entry`. -/
structure UpsertArgs where
  source_filename : String
  game_name : String
  game_id : String
  id_source : String
  target_folder : String
  destination_filename : String

/-- `re.sub(r"[^a-z0-9]+", "", value.lower())`
(`game_service.normalize_lookup_key`). -/
def normalize_lookup_key (value : String) : String :=
  ⟨(value.data.map asciiLowerChar).filter isLowerAlnum⟩

def UpsertArgs.source_key (a : UpsertArgs) : String :=
  normalize_lookup_key (pyPathStem a.source_filename)

def UpsertArgs.destination_key (a : UpsertArgs) : String :=
  normalize_lookup_key (pyPathStem a.destination_filename)

def UpsertArgs.game_name_key (a : UpsertArgs) : String :=
  normalize_lookup_key a.game_name

/-- The field assignments written by `upsert_manifest_entry`, in source
order; `now` is `int(time.time())`. -/
def entryFields (a : UpsertArgs) (now : Int) : List (String × Json) :=
  [("source_filename", .str a.source_filename),
   ("source_key", .str a.source_key),
   ("game_name", .str a.game_name),
   ("game_name_key", .str a.game_name_key),
   ("game_id", .str a.game_id),
   ("id_source", .str a.id_source),
   ("target_folder", .str a.target_folder),
   ("destination_filename", .str a.destination_filename),
   ("destination_key", .str a.destination_key),
   ("updated_at", .num now)]

/-- The four-key match of the upsert loop; non-dict entries never match. -/
def matchesEntry (a : UpsertArgs) (e : Json) : Bool :=
  match e with
  | .obj fields =>
    jgetStr fields "source_key" == some a.source_key ||
    jgetStr fields "source_filename" == some a.source_filename ||
    jgetStr fields "destination_key" == some a.destination_key ||
    jgetStr fields "destination_filename" == some a.destination_filename
  | _ => false

/-- Set one key of a JSON object in place (append if absent) — the effect
of one `dict` item assignment, preserving insertion order. -/
def setField : List (String × Json) → String → Json → List (String × Json)
  | [], k, v => [(k, v)]
  | (k0, v0) :: rest, k, v =>
    if k0 = k then (k0, v) :: rest else (k0, v0) :: setField rest k v

/-- Python `dict.update` with the ten upsert fields. -/
def mergeFields (fields : List (String × Json)) (new : List (String × Json)) :
    List (String × Json) :=
  new.foldl (fun acc kv => setField acc kv.1 kv.2) fields

/-- `entry.update({...})` on a matched (dict) entry. -/
def updateEntry (a : UpsertArgs) (now : Int) (e : Json) : Json :=
  match e with
  | .obj fields => .obj (mergeFields fields (entryFields a now))
  | other => other

/-- The entry appended when no existing entry matches. -/
def newEntry (a : UpsertArgs) (now : Int) : Json := .obj (entryFields a now)

/-- The loop of `upsert_manifest_entry`: update the first entry matching
any of the four keys in place, otherwise append a fresh entry. -/
def upsertEntries (a : UpsertArgs) (now : Int) : List Json → List Json
  | [] => [newEntry a now]
  | e :: rest =>
    if matchesEntry a e then updateEntry a now e :: rest
    else e :: upsertEntries a now rest

/-- `game_service.upsert_manifest_entry`: load the manifest from the file
state, run the find-or-append loop, and return the manifest that is saved
back (the saved file is the serialization of this value). -/
def upsert_manifest_entry (file : FileRead) (a : UpsertArgs) (now : Int) : Manifest :=
  ⟨upsertEntries a now (load_manifest file).entries⟩

/-- First pass of `lookup_game_id_from_manifest`: normalized-key match
against `source_key` or `destination_key`, skipping entries without a
nonempty string `game_id`. -/
def lookupPassKey (key : String) : List Json → Option String
  | [] => none
  | e :: rest =>
    match e with
    | .obj fields =>
      if key ≠ "" ∧ (jgetStr fields "source_key" == some key ||
                     jgetStr fields "destination_key" == some key) then
        match jgetStr fields "game_id" with
        | some g => if g ≠ "" then some g else lookupPassKey key rest
        | none => lookupPassKey key rest
      else lookupPassKey key rest
    | _ => lookupPassKey key rest

/-- Second pass: verbatim filename match against `source_filename` or
`destination_filename`. -/
def lookupPassName (name : String) : List Json → Option String
  | [] => none
  | e :: rest =>
    match e with
    | .obj fields =>
      if name ≠ "" ∧ (jgetStr fields "source_filename" == some name ||
                      jgetStr fields "destination_filename" == some name) then
        match jgetStr fields "game_id" with
        | some g => if g ≠ "" then some g else lookupPassName name rest
        | none => lookupPassName name rest
      else lookupPassName name rest
    | _ => lookupPassName name rest

/-- Third pass: normalized game-name key match against `game_name_key`. -/
def lookupPassGame (key : String) : List Json → Option String
  | [] => none
  | e :: rest =>
    match e with
    | .obj fields =>
      if key ≠ "" ∧ jgetStr fields "game_name_key" == some key then
        match jgetStr fields "game_id" with
        | some g => if g ≠ "" then some g else lookupPassGame key rest
        | none => lookupPassGame key rest
      else lookupPassGame key rest
    | _ => lookupPassGame key rest

/-- The three-tier search of `lookup_game_id_from_manifest`, at the level
of an entry list. -/
def lookup_game_id_entries (entries : List Json) (source_filename : Option String)
    (game_name : Option String) : Option String :=
  let skey := match source_filename with
    | some f => if f = "" then "" else normalize_lookup_key (pyPathStem f)
    | none => ""
  let sname := match source_filename with
    | some f => if f = "" then "" else pyStrip f
    | none => ""
  let gkey := match game_name with
    | some g => if g = "" then "" else normalize_lookup_key g
    | none => ""
  match lookupPassKey skey entries with
  | some g => some g
  | none =>
    match lookupPassName sname entries with
    | some g => some g
    | none => lookupPassGame gkey entries

/-- `game_service.lookup_game_id_from_manifest` (file-state level). -/
def lookup_game_id_from_manifest (file : FileRead) (source_filename : Option String)
    (game_name : Option String) : Option String :=
  lookup_game_id_entries (load_manifest file).entries source_filename game_name

/-- `game_service.resolve_game_id_for_target`: filename-embedded ID first,
then manifest lookup (when a target is available, given by its manifest
file state), then generation. -/
def resolve_game_id_for_target (target : Option FileRead) (game_name : Option String)
    (source_filename : Option String) : String × Bool × String :=
  match extract_game_id_from_filename source_filename with
  | some g => (g, false, "filename")
  | none =>
    let matched := match target with
      | some file => lookup_game_id_from_manifest file source_filename game_name
      | none => none
    match matched with
    | some m => (m, false, "manifest")
    | none =>
      let seed := if pyStrip (game_name.getD "") ≠ "" then pyStrip (game_name.getD "")
                  else pyStrip (source_filename.getD "")
      (generatedFor seed, true, "generated")

/-! ## Import pipeline (`routes.import_iso`)

The route is modelled as a function of an explicit target state.  The
disc-metadata extraction (`extract_game_id_from_iso`, a `pycdlib` call on
the staged bytes) is an external collaborator that never raises past its
boundary and returns an optional canonical ID; its per-file result is
therefore part of the `Upload` input.  Free space and target existence
are modelled as constant during one request (concurrent external change
is outside this embedding).  The temporary staging directory is not
observable (it is always removed on exit) and is omitted. -/

/-- One uploaded file: its client-supplied filename, its byte size, and
the result of `extract_game_id_from_iso` on its staged content. -/
structure Upload where
  filename : String
  size : Nat
  isoId : Option String

/-- The file-system state of the target visible to one import request. -/
structure TargetState where
  targetExists : Bool
  isDir : Bool
  accessOk : Bool
  structureConflict : Bool
  freeBytes : Nat
  existingDest : List String
  manifest : FileRead

/-- `target_service.validate_target_access`. -/
def validate_target_access (t : TargetState) : Bool × String :=
  if ¬t.targetExists then (false, "target path does not exist")
  else if ¬t.isDir then (false, "target path is not a directory")
  else if ¬t.accessOk then (false, "target path is not writable")
  else (true, "ok")

/-- The error responses of the import route. -/
inductive ImportError where
  | targetValidation : String → ImportError
  | invalidStructure : ImportError
  | noFiles : ImportError
  | emptyFilename : ImportError
  | nonIso : String → ImportError
  | emptyPayload : ImportError
  | insufficientSpace : Nat → Nat → ImportError
  | targetDisappeared : ImportError
  | collision : String → ImportError
  | spaceDropped : String → ImportError
  | unexpectedError : ImportError

/-- The per-file record built while staging (`prepared_files` items). -/
structure Prepared where
  name : String
  source_filename : String
  game_name : String
  game_id : String
  id_source : String
  size : Nat
  target_folder : String

/-- The destination-name normalization of the staging loop: prefix
`"<game_id>_"` unless the upper-cased original name already starts
with it. -/
def normalized_destination_name (game_id original_name : String) : String :=
  if strStartsWith (game_id ++ "_") (pyUpper original_name) then original_name
  else game_id ++ "_" ++ original_name

/-- The CD/DVD decision: `"CD" if file_size < CD_THRESHOLD_BYTES else "DVD"`. -/
def choose_target_folder (file_size : Nat) : String :=
  if file_size < CD_THRESHOLD_BYTES then "CD" else "DVD"

/-- The staging loop of `import_iso`: validate each upload's base name and
`.iso` extension, derive a game name (falling back to the stem), resolve
the ID from disc metadata or generation, and build the `Prepared` record. -/
def stageFiles : List Upload → Except ImportError (List Prepared)
  | [] => .ok []
  | u :: rest =>
    let original_name := pyPathName u.filename
    if original_name = "" then .error .emptyFilename
    else if pyLower (pyPathSuffix original_name) ≠ ".iso" then .error (.nonIso original_name)
    else
      let inferred_game_name := match derive_game_name none (some original_name) with
        | .ok n => n
        | .error _ => pyPathStem original_name
      let (resolved_game_id, id_source) := match u.isoId with
        | some g => (g, "iso")
        | none => (generatedFor inferred_game_name, "generated")
      let item : Prepared :=
        { name := normalized_destination_name resolved_game_id original_name
          source_filename := original_name
          game_name := inferred_game_name
          game_id := resolved_game_id
          id_source := id_source
          size := u.size
          target_folder := choose_target_folder u.size }
      (stageFiles rest).map (fun items => item :: items)

/-- Sum of the sizes of a prepared-file list. -/
def sumSizes (l : List Prepared) : Nat := (l.map Prepared.size).foldl (· + ·) 0

/-- Outcome of one import request: an error (with the files already copied
and the manifest state at failure time) or success. -/
inductive ImportOutcome where
  | failure : ImportError → List String → List Json → ImportOutcome
  | success : List String → List Json → ImportOutcome

/-- The copy loop of `import_iso`: per file, re-check the target root,
check for a destination collision, re-check free space against the
not-yet-copied payload, then copy and upsert one manifest entry. -/
def importLoop (t : TargetState) (overwrite : Bool) (now : Int) (allFiles : List Prepared) :
    List Prepared → List String → List String → List Json → ImportOutcome
  | [], imported, _, manifest => .success imported manifest
  | item :: rest, imported, existing, manifest =>
    if ¬t.targetExists then .failure .targetDisappeared imported manifest
    else
      let destination := item.target_folder ++ "/" ++ item.name
      if destination ∈ existing ∧ ¬overwrite then .failure (.collision item.name) imported manifest
      else
        match imported with
        | _ :: _ =>
          -- The remaining-bytes expression builds the set comprehension of
          -- the already-imported records under the key "name", but those
          -- records are written under the key "file": on every iteration
          -- with a nonempty `imported` list the real program raises
          -- KeyError, which the request's blanket handler turns into a
          -- generic 500 failure (files already copied remain on disk and
          -- their manifest entries remain written).
          .failure .unexpectedError imported manifest
        | [] =>
          -- With no file imported yet the comprehension is over the empty
          -- list, so no payload is excluded from the remaining sum.
          let remaining := sumSizes allFiles
          let dynamicRequired := remaining + compute_buffer remaining
          if t.freeBytes < dynamicRequired then .failure (.spaceDropped item.name) imported manifest
          else
            let args : UpsertArgs :=
              { source_filename := item.source_filename
                game_name := item.game_name
                game_id := item.game_id
                id_source := item.id_source
                target_folder := item.target_folder
                destination_filename := item.name }
            importLoop t overwrite now allFiles rest (imported ++ [item.name])
              (destination :: existing) (upsertEntries args now manifest)

/-- The `import_iso` route: validate the target, ensure the folder
structure, validate and stage the uploads, check space once for the whole
batch, then run the copy loop. -/
def import_iso (t : TargetState) (overwrite : Bool) (uploads : List Upload)
    (now : Int) : ImportOutcome :=
  let entries := (load_manifest t.manifest).entries
  if ¬(validate_target_access t).1 then
    .failure (.targetValidation (validate_target_access t).2) [] entries
  else if t.structureConflict then .failure .invalidStructure [] entries
  else if uploads.isEmpty then .failure .noFiles [] entries
  else
    match stageFiles uploads with
    | .error e => .failure e [] entries
    | .ok prepared =>
      let total_iso_bytes := sumSizes prepared
      if total_iso_bytes = 0 then .failure .emptyPayload [] entries
      else
        let required_bytes := total_iso_bytes + compute_buffer total_iso_bytes
        if t.freeBytes < required_bytes then
          .failure (.insufficientSpace required_bytes t.freeBytes) [] entries
        else importLoop t overwrite now prepared prepared [] t.existingDest entries

/-! Outcome projections (used to state properties without a decidable
equality on `Json`). -/

def ImportOutcome.isSuccessB : ImportOutcome → Bool
  | .success _ _ => true
  | .failure _ _ _ => false

def ImportOutcome.copiedFiles : ImportOutcome → List String
  | .success imported _ => imported
  | .failure _ copied _ => copied

def ImportOutcome.manifestAfter : ImportOutcome → List Json
  | .success _ m => m
  | .failure _ _ m => m

/-- Whether a failure outcome is one of the two per-file validation errors
(empty base filename / non-`.iso` extension). -/
def ImportOutcome.isFileValidationFailure : ImportOutcome → Bool
  | .failure .emptyFilename _ _ => true
  | .failure (.nonIso _) _ _ => true
  | _ => false

/-- Whether an outcome is the generic 500 failure (the blanket exception
handler of the route). -/
def ImportOutcome.isUnexpectedError : ImportOutcome → Bool
  | .failure .unexpectedError _ _ => true
  | _ => false

/-- String field of a manifest entry, `none` for non-dict entries. -/
def entryStrField (key : String) (e : Json) : Option String :=
  match e with
  | .obj fields => jgetStr fields key
  | _ => none

/-! ## Groundwork lemmas -/

theorem bitlenF_zero (fuel : Nat) : bitlenF fuel 0 = 0 := by
  cases fuel <;> rfl

theorem bitlenF_spec (fuel : Nat) : ∀ n : Nat, n ≤ fuel →
    n < 2 ^ bitlenF fuel n ∧ (n ≠ 0 → 2 ^ bitlenF fuel n ≤ 2 * n) := by
  induction fuel with
  | zero =>
    intro n hn
    interval_cases n
    simp [bitlenF]
  | succ fuel ih =>
    intro n hn
    by_cases h0 : n = 0
    · subst h0; simp [bitlenF]
    · have hrec : bitlenF (fuel + 1) n = bitlenF fuel (n / 2) + 1 := by
        simp [bitlenF, h0]
      have hle : n / 2 ≤ fuel := by omega
      obtain ⟨ih1, ih2⟩ := ih (n / 2) hle
      constructor
      · have : n < 2 * (2 ^ bitlenF fuel (n / 2)) := by omega
        rw [hrec]; rw [pow_succ]; omega
      · intro _
        rw [hrec, pow_succ]
        by_cases h2 : n / 2 = 0
        · have hn1 : n = 1 := by omega
          rw [h2, bitlenF_zero]
          subst hn1
          norm_num
        · have := ih2 h2
          omega

theorem bitlen_lt (n : Nat) : n < 2 ^ bitlen n := (bitlenF_spec n n le_rfl).1

theorem bitlen_pos_le (n : Nat) (h : n ≠ 0) : 2 ^ bitlen n ≤ 2 * n :=
  (bitlenF_spec n n le_rfl).2 h

theorem bitlen_le_of_lt {n k : Nat} (h : n < 2 ^ k) : bitlen n ≤ k := by
  by_cases h0 : n = 0
  · subst h0; simp [bitlen, bitlenF]
  · have h1 := bitlen_pos_le n h0
    have h2 : 2 ^ bitlen n < 2 ^ (k + 1) := by
      calc 2 ^ bitlen n ≤ 2 * n := h1
        _ < 2 * 2 ^ k := by omega
        _ = 2 ^ (k + 1) := by ring
    have := (Nat.pow_lt_pow_iff_right (by norm_num : 1 < 2)).1 h2
    omega

theorem lt_bitlen_of_le {n k : Nat} (h : 2 ^ k ≤ n) : k < bitlen n := by
  have h1 := bitlen_lt n
  have h2 : 2 ^ k < 2 ^ bitlen n := lt_of_le_of_lt h h1
  exact (Nat.pow_lt_pow_iff_right (by norm_num : 1 < 2)).1 h2

/-- `rhe` returns the floor or the floor plus one, the latter only when the
remainder is at least half the divisor. -/
theorem rhe_cases (a d : Nat) :
    rhe a d = a / d ∨ (rhe a d = a / d + 1 ∧ d ≤ 2 * (a % d)) := by
  unfold rhe
  split
  · exact Or.inl rfl
  · split
    · right; constructor
      · rfl
      · omega
    · split
      · exact Or.inl rfl
      · right; constructor
        · rfl
        · omega

theorem rhe_ge (a d : Nat) : a / d ≤ rhe a d := by
  rcases rhe_cases a d with h | ⟨h, _⟩ <;> omega

theorem rhe_mul_le (a d : Nat) (hd : 0 < d) : 2 * (rhe a d * d) ≤ 2 * a + d := by
  have hlt := Nat.mod_lt a hd
  have h2 : a / d * d + a % d = a := by
    rw [Nat.mul_comm]; exact Nat.div_add_mod a d
  rcases rhe_cases a d with h | ⟨h, hr⟩
  · rw [h]
    have h3 : a / d * d ≤ a := Nat.div_mul_le_self a d
    omega
  · rw [h]
    have h1 : (a / d + 1) * d = a / d * d + d := by ring
    omega

theorem rhe_mul_ge (a d : Nat) : a / d * d ≤ rhe a d * d := by
  exact Nat.mul_le_mul_right d (rhe_ge a d)

/-! ## C8: CD/DVD threshold -/

/-- C8: a staged file goes to `CD` exactly when its size is strictly below
700 MiB, and to `DVD` otherwise; exactly 700 MiB goes to `DVD`. -/
theorem choose_target_folder_spec (n : Nat) :
    (choose_target_folder n = "CD" ↔ n < 700 * 1024 * 1024) ∧
    (choose_target_folder n = "DVD" ↔ 700 * 1024 * 1024 ≤ n) ∧
    choose_target_folder (700 * 1024 * 1024) = "DVD" := by
  unfold choose_target_folder CD_THRESHOLD_BYTES
  refine ⟨?_, ?_, by norm_num⟩
  · constructor
    · intro h
      by_contra hn
      simp only [if_neg (by omega : ¬ n < 700 * 1024 * 1024)] at h
      exact absurd h (by decide)
    · intro h; simp [h]
  · constructor
    · intro h
      by_contra hn
      simp only [if_pos (by omega : n < 700 * 1024 * 1024)] at h
      exact absurd h (by decide)
    · intro h
      simp only [if_neg (by omega : ¬ n < 700 * 1024 * 1024)]

/-- Witness for C8 at 600 MiB and at the exact threshold. -/
theorem choose_target_folder_spec_witness :
    choose_target_folder 629145600 = "CD" ∧ choose_target_folder 734003200 = "DVD" :=
  ⟨(choose_target_folder_spec 629145600).1.2 (by norm_num),
   ((choose_target_folder_spec 734003200).2.1).2 (by norm_num)⟩

/-! ## C4: lenient manifest load -/

/-- The degenerate file states of the lenient-read policy: missing file,
unreadable file, invalid JSON, non-object document, or an `"entries"`
field that is not a list. -/
def badManifestRead : FileRead → Bool
  | .missing => true
  | .unreadable => true
  | .parseError => true
  | .ok j =>
    match j with
    | .obj fields =>
      match jget fields "entries" with
      | some (.arr _) => false
      | some _ => true
      | none => false
    | _ => true

/-- C4: loading the manifest never raises (`load_manifest` is total by
construction), and every degenerate file state yields the empty manifest. -/
theorem load_manifest_lenient (f : FileRead) (h : badManifestRead f = true) :
    load_manifest f = ⟨[]⟩ := by
  cases f with
  | missing => rfl
  | unreadable => rfl
  | parseError => rfl
  | ok j =>
    cases j with
    | obj fields =>
      simp only [badManifestRead] at h
      simp only [load_manifest]
      cases hg : jget fields "entries" with
      | none => simp [hg]
      | some v =>
        cases v <;> simp [hg] at h ⊢
    | null => rfl
    | bool b => rfl
    | num n => rfl
    | str s => rfl
    | arr xs => rfl

/-- Witness for C4: a manifest file holding `[1]` (valid JSON, wrong shape)
loads as the empty manifest. -/
theorem load_manifest_lenient_witness :
    load_manifest (.ok (.arr [.num 1])) = ⟨[]⟩ :=
  load_manifest_lenient (.ok (.arr [.num 1])) rfl

/-! ## C5: the 5% / 500 MiB space buffer -/

theorem rn53_eq_of_small {n : Nat} (h : n < 2 ^ 53) : rn53 n = n := by
  unfold rn53
  rw [if_pos (bitlen_le_of_lt h)]

/-- Exact floor of the double product: for realistic payloads (up to
`2^50` bytes = 1 PiB) the float computation `int(n * 0.05)` agrees with
the exact `n / 20`. -/
theorem intTimes05_eq (n : Nat) (h : n ≤ 2 ^ 50) : intTimes05 n = n / 20 := by
  rcases Nat.lt_or_ge n 3 with h3 | h3
  · interval_cases n <;> decide
  · have hsmall : rn53 n = n := rn53_eq_of_small (lt_of_le_of_lt h (by norm_num))
    unfold intTimes05
    rw [hsmall]
    simp only [ratioNum05]
    set N := n * 3602879701896397 with hN
    have hbig : 2 ^ 53 ≤ N := by
      calc (2 : Nat) ^ 53 ≤ 3 * 3602879701896397 := by norm_num
        _ ≤ n * 3602879701896397 := Nat.mul_le_mul_right _ h3
    have hNlt : N < 2 ^ 102 := by
      calc N ≤ 2 ^ 50 * 3602879701896397 := Nat.mul_le_mul_right _ h
        _ < 2 ^ 102 := by norm_num
    have hL1 : 54 ≤ bitlen N := lt_bitlen_of_le hbig
    have hL2 : bitlen N ≤ 102 := bitlen_le_of_lt hNlt
    unfold rn53
    rw [if_neg (by omega : ¬ bitlen N ≤ 53)]
    set s := 2 ^ (bitlen N - 53) with hs
    have hspos : 0 < s := by rw [hs]; exact pow_pos (by norm_num) _
    have hsle : s ≤ 2 ^ 49 := by
      rw [hs]; exact Nat.pow_le_pow_right (by norm_num) (by omega)
    have hsdvd : s ∣ 2 ^ 56 := by
      rw [hs]; exact pow_dvd_pow 2 (by omega)
    set k := n / 20 with hk
    set r := n % 20 with hrd
    have hkr : 20 * k + r = n := by rw [hk, hrd]; omega
    have hrlt : r < 20 := by rw [hrd]; exact Nat.mod_lt n (by norm_num)
    have hkb : k ≤ 56294995342131 := by
      rw [hk]
      calc n / 20 ≤ 2 ^ 50 / 20 := Nat.div_le_div_right h
        _ = 56294995342131 := by norm_num
    have hlow0 : k * 2 ^ 56 ≤ N := by
      calc k * 2 ^ 56 ≤ k * (2 ^ 56 + 4) := Nat.mul_le_mul_left _ (by norm_num)
        _ = 20 * k * 3602879701896397 := by ring
        _ ≤ n * 3602879701896397 := Nat.mul_le_mul_right _ (by omega)
    have hlow : k * 2 ^ 56 ≤ rhe N s * s := by
      have h1 : k * 2 ^ 56 = k * 2 ^ 56 / s * s :=
        (Nat.div_mul_cancel (hsdvd.mul_left k)).symm
      rw [h1]
      calc k * 2 ^ 56 / s * s ≤ N / s * s :=
            Nat.mul_le_mul_right _ (Nat.div_le_div_right hlow0)
        _ ≤ rhe N s * s := rhe_mul_ge N s
    have hup0 : 2 * (rhe N s * s) ≤ 2 * N + s := rhe_mul_le N s hspos
    have h2N : 2 * N = 2 * k * 2 ^ 56 + 8 * k + 2 * r * 3602879701896397 := by
      have hn' : n = 20 * k + r := by omega
      rw [hN, hn']
      ring
    omega

/-- C5 counterexample: the claim "for every non-negative payload size the
buffer equals max(5% of the payload, 500 MiB)" fails at the payload
`2^59`: the double multiplication rounds `2^59 * 0.05` two whole units
above the exact 5% (`2^59 / 20`), so `compute_buffer` exceeds the claimed
value (it is not the floor, rounding or ceiling of the exact 5%). -/
theorem compute_buffer_counterexample :
    compute_buffer 576460752303423488 = 28823037615171176 ∧
    max (576460752303423488 / 20) 524288000 = 28823037615171174 ∧
    compute_buffer 576460752303423488 ≠ max (576460752303423488 / 20) 524288000 := by
  refine ⟨by decide, by decide, by decide⟩

/-- C5 (amended): the buffer is `max(int(n * 0.05), 500 MiB)` under exact
IEEE-754 double semantics; for every payload up to `2^50` bytes (1 PiB)
this equals `max(n / 20, 500 MiB)` exactly, and in particular the pinned
values hold: `compute_buffer 0 = 500 MiB` and
`compute_buffer (20 GiB) = 1 GiB`.  Moreover the space check of the import
route requires payload plus this buffer of free bytes: once the
target checks pass and the batch stages with a nonzero payload, the
request fails with an insufficient-space error reporting
`payload + buffer` exactly when the free bytes are below that sum, and
proceeds to the copy loop otherwise. -/
theorem compute_buffer_spec :
    compute_buffer 0 = 524288000 ∧
    compute_buffer 21474836480 = 1073741824 ∧
    (∀ n : Nat, n ≤ 2 ^ 50 → compute_buffer n = max (n / 20) 524288000) ∧
    ∀ (t : TargetState) (overwrite : Bool) (uploads : List Upload) (now : Int)
      (prepared : List Prepared),
      (validate_target_access t).1 = true → t.structureConflict = false →
      uploads.isEmpty = false → stageFiles uploads = .ok prepared →
      sumSizes prepared ≠ 0 →
      ((t.freeBytes < sumSizes prepared + compute_buffer (sumSizes prepared) →
        import_iso t overwrite uploads now =
          .failure (.insufficientSpace
              (sumSizes prepared + compute_buffer (sumSizes prepared)) t.freeBytes)
            [] (load_manifest t.manifest).entries) ∧
       (sumSizes prepared + compute_buffer (sumSizes prepared) ≤ t.freeBytes →
        import_iso t overwrite uploads now =
          importLoop t overwrite now prepared prepared [] t.existingDest
            (load_manifest t.manifest).entries)) := by
  refine ⟨by decide, by decide, ?_, ?_⟩
  · intro n h
    unfold compute_buffer SPACE_BUFFER_MIN_BYTES
    rw [intTimes05_eq n h]
  · intro t overwrite uploads now prepared hok hsc hne hstage htot
    have hbase : import_iso t overwrite uploads now =
        (if sumSizes prepared = 0 then
          ImportOutcome.failure .emptyPayload [] (load_manifest t.manifest).entries
        else if t.freeBytes < sumSizes prepared + compute_buffer (sumSizes prepared) then
          ImportOutcome.failure (.insufficientSpace
              (sumSizes prepared + compute_buffer (sumSizes prepared)) t.freeBytes)
            [] (load_manifest t.manifest).entries
        else importLoop t overwrite now prepared prepared [] t.existingDest
          (load_manifest t.manifest).entries) := by
      unfold import_iso
      rw [if_neg (by simp [hok]), if_neg (by simp [hsc]), if_neg (by simp [hne]), hstage]
    rw [hbase, if_neg htot]
    constructor
    · intro hlt
      rw [if_pos hlt]
    · intro hge
      rw [if_neg (by omega)]

/-- Witness for C5: the 20 GiB pinned payload, and the spec's capacity
scenario — a 900 MiB upload against 1 GiB free fails the space check with
`payload + buffer` (= 900 MiB + 500 MiB) as the required amount. -/
theorem compute_buffer_spec_witness :
    compute_buffer 21474836480 = max (21474836480 / 20) 524288000 ∧
    import_iso ⟨true, true, true, false, 1073741824, [], .missing⟩ false
      [⟨"Big_Game.iso", 943718400, some "TEST_000.00"⟩] 0 =
      .failure (.insufficientSpace (943718400 + compute_buffer 943718400) 1073741824)
        [] (load_manifest .missing).entries := by
  refine ⟨compute_buffer_spec.2.2.1 21474836480 (by norm_num), ?_⟩
  exact (compute_buffer_spec.2.2.2 ⟨true, true, true, false, 1073741824, [], .missing⟩
    false [⟨"Big_Game.iso", 943718400, some "TEST_000.00"⟩] 0
    [⟨"TEST_000.00_Big_Game.iso", "Big_Game.iso", "Big Game", "TEST_000.00", "iso",
      943718400, "DVD"⟩] rfl rfl rfl (by rfl) (by decide)).1 (by decide)

/-! ## C2: shape of generated game IDs -/

theorem toNat_charOfNat {n : Nat} (h : n < 55296) : (Char.ofNat n).toNat = n := by
  have hv : n.isValidChar := Or.inl h
  rw [Char.ofNat, dif_pos hv]
  simp [Char.ofNatAux, Char.toNat, UInt32.toNat, BitVec.toNat_ofNatLt]

/-- Upper-casing an alphanumeric character yields an upper-case
alphanumeric character. -/
theorem upperChar_alnum {c : Char} (h : isAsciiAlnum c = true) :
    isUpperAlnum (asciiUpperChar c) = true := by
  simp only [isAsciiAlnum, isAsciiAlpha, isAsciiUpper, isAsciiLower, isAsciiDigit,
    Bool.or_eq_true, Bool.and_eq_true, decide_eq_true_eq] at h
  unfold asciiUpperChar
  by_cases hl : isAsciiLower c = true
  · simp only [isAsciiLower, Bool.and_eq_true, decide_eq_true_eq] at hl
    rw [if_pos]
    · have hlt : c.toNat - 32 < 55296 := by omega
      simp only [isUpperAlnum, isAsciiUpper, isAsciiDigit, Bool.or_eq_true, Bool.and_eq_true,
        decide_eq_true_eq, toNat_charOfNat hlt]
      omega
    · simp only [isAsciiLower, Bool.and_eq_true, decide_eq_true_eq]
      exact hl
  · simp only [isAsciiLower, Bool.and_eq_true, decide_eq_true_eq] at hl
    rw [if_neg]
    · simp only [isUpperAlnum, isAsciiUpper, isAsciiDigit, Bool.or_eq_true, Bool.and_eq_true,
        decide_eq_true_eq]
      omega
    · simp only [isAsciiLower, Bool.and_eq_true, decide_eq_true_eq]
      omega

theorem isAsciiDigit_digitChar (m : Nat) : isAsciiDigit (digitChar (m % 10)) = true := by
  have h : m % 10 < 10 := Nat.mod_lt _ (by norm_num)
  unfold digitChar isAsciiDigit
  rw [toNat_charOfNat (by omega)]
  simp only [Bool.and_eq_true, decide_eq_true_eq]
  omega

/-- Any 4-character upper-alphanumeric prefix glued to `_NNN.NN` matches
the relaxed generated-ID shape. -/
theorem isGeneratedShapeId_of (p : List Char) (x y : Nat) (hp : p.length = 4)
    (hup : ∀ c ∈ p, isUpperAlnum c = true) :
    isGeneratedShapeId (⟨p⟩ ++ "_" ++ pad3 x ++ "." ++ pad2 y) = true := by
  match p, hp with
  | [p0, p1, p2, p3], _ =>
    have h0 := hup p0 (by simp)
    have h1 := hup p1 (by simp)
    have h2 := hup p2 (by simp)
    have h3 := hup p3 (by simp)
    show isGeneratedShapeId
      ⟨[p0, p1, p2, p3, '_', digitChar (x / 100 % 10), digitChar (x / 10 % 10),
        digitChar (x % 10), '.', digitChar (y / 10 % 10), digitChar (y % 10)]⟩ = true
    simp only [isGeneratedShapeId, h0, h1, h2, h3, isAsciiDigit_digitChar,
      Bool.and_eq_true, Bool.and_self]
    trivial

/-- C2 (amended): every generated ID matches the relaxed shape
`[A-Z0-9]{4}_[0-9]{3}\.[0-9]{2}`: the 4-character prefix is upper-case
alphanumeric (letters are not guaranteed), and the numeric suffix is
always three digits, a dot, and two digits. -/
theorem generate_game_id_shape (seed : String) :
    isGeneratedShapeId (generate_game_id seed) = true := by
  simp only [generate_game_id]
  apply isGeneratedShapeId_of
  · split
    · next h =>
      simp only [List.length_take, List.length_append, List.length_cons, List.length_nil]
      omega
    · next h =>
      rw [List.length_take]
      omega
  · intro c hc
    have hc2 := List.take_subset 4 _ hc
    have halnum : ∀ x ∈ (seed.data.filter isAsciiAlnum).map asciiUpperChar,
        isUpperAlnum x = true := by
      intro x hx
      obtain ⟨a, ha, rfl⟩ := List.mem_map.1 hx
      exact upperChar_alnum (List.mem_filter.1 ha).2
    split at hc2
    · next h =>
      have hc3 := List.take_subset 4 _ hc2
      rcases List.mem_append.1 hc3 with h1 | h1
      · exact halnum c h1
      · simp only [List.mem_cons, List.mem_singleton] at h1
        rcases h1 with rfl | rfl | rfl | rfl | h1
        · decide
        · decide
        · decide
        · decide
        · simp at h1
    · next h => exact halnum c hc2

/-- C2 counterexample: the seed `"1234"` survives the non-alphanumeric
strip with digits, so the generated ID has a digit prefix and does not
match the canonical letters-only pattern (and would be rejected by
`normalize_game_id`). -/
theorem generate_game_id_counterexample :
    generate_game_id "1234" = "1234_631.18" ∧
    isCanonicalId "1234_631.18" = false ∧
    (normalize_game_id "1234_631.18").isOk = false := by
  refine ⟨by rfl, by decide, by decide⟩

/-! ## C9: normalization of canonical IDs -/

theorem stringMk_data (s : String) : String.mk s.data = s := by
  cases s
  rfl

theorem dropWhile_eq_self_of {l : List Char} {p : Char → Bool}
    (h : ∀ c ∈ l, p c = false) : l.dropWhile p = l := by
  cases l with
  | nil => rfl
  | cons a as => simp [List.dropWhile, h a (by simp)]

theorem pyStripList_eq_self {l : List Char} (h : ∀ c ∈ l, isPySpace c = false) :
    pyStripList l = l := by
  unfold pyStripList
  rw [dropWhile_eq_self_of h]
  rw [dropWhile_eq_self_of (fun c hc => h c (List.mem_reverse.1 hc))]
  exact List.reverse_reverse l

theorem map_eq_self_of {l : List Char} {f : Char → Char} (h : ∀ c ∈ l, f c = c) :
    l.map f = l := by
  induction l with
  | nil => rfl
  | cons a as ih =>
    simp only [List.map_cons, h a (by simp)]
    rw [ih (fun c hc => h c (by simp [hc]))]

theorem charFix_of_upper {c : Char} (h : isAsciiUpper c = true) :
    isPySpace c = false ∧ asciiUpperChar c = c := by
  simp only [isAsciiUpper, Bool.and_eq_true, decide_eq_true_eq] at h
  constructor
  · simp only [isPySpace, Bool.or_eq_false_iff, decide_eq_false_iff_not]
    omega
  · unfold asciiUpperChar
    rw [if_neg]
    simp only [isAsciiLower, Bool.and_eq_true, decide_eq_true_eq]
    omega

theorem charFix_of_digit {c : Char} (h : isAsciiDigit c = true) :
    isPySpace c = false ∧ asciiUpperChar c = c := by
  simp only [isAsciiDigit, Bool.and_eq_true, decide_eq_true_eq] at h
  constructor
  · simp only [isPySpace, Bool.or_eq_false_iff, decide_eq_false_iff_not]
    omega
  · unfold asciiUpperChar
    rw [if_neg]
    simp only [isAsciiLower, Bool.and_eq_true, decide_eq_true_eq]
    omega

/-- C9: `normalize_game_id` is the identity (wrapped in `ok`) on canonical
IDs — hence idempotent there — and rejects any input whose stripped
upper-casing does not match the canonical pattern exactly. -/
theorem normalize_game_id_spec (x : String) :
    (isCanonicalId x = true → normalize_game_id x = .ok x) ∧
    (isCanonicalId x = true →
      (normalize_game_id x).bind normalize_game_id = normalize_game_id x) ∧
    (isCanonicalId (pyUpper (pyStrip x)) = false →
      normalize_game_id x = .error "game_id must match pattern like SLUS_209.46") := by
  have hmain : isCanonicalId x = true → normalize_game_id x = .ok x := by
    intro h
    have hchars : ∀ c ∈ x.data, isPySpace c = false ∧ asciiUpperChar c = c := by
      unfold isCanonicalId at h
      split at h
      · next c0 c1 c2 c3 c4 c5 c6 c7 c8 c9 c10 heq =>
        simp only [Bool.and_eq_true, decide_eq_true_eq] at h
        obtain ⟨⟨⟨⟨⟨⟨⟨⟨⟨⟨h0, h1⟩, h2⟩, h3⟩, h4⟩, h5⟩, h6⟩, h7⟩, h8⟩, h9⟩, h10⟩ := h
        intro c hc
        rw [heq] at hc
        simp only [List.mem_cons, List.not_mem_nil, or_false] at hc
        rcases hc with rfl | rfl | rfl | rfl | rfl | rfl | rfl | rfl | rfl | rfl | rfl
        · exact charFix_of_upper h0
        · exact charFix_of_upper h1
        · exact charFix_of_upper h2
        · exact charFix_of_upper h3
        · subst h4; decide
        · exact charFix_of_digit h5
        · exact charFix_of_digit h6
        · exact charFix_of_digit h7
        · subst h8; decide
        · exact charFix_of_digit h9
        · exact charFix_of_digit h10
      · exact absurd h (by simp)
    have hstrip : pyStrip x = x := by
      unfold pyStrip
      rw [pyStripList_eq_self (fun c hc => (hchars c hc).1)]
    have hupper : pyUpper x = x := by
      unfold pyUpper
      rw [map_eq_self_of (fun c hc => (hchars c hc).2)]
    simp only [normalize_game_id]
    rw [hstrip, hupper, if_pos h]
  refine ⟨hmain, ?_, ?_⟩
  · intro h
    rw [hmain h]
    rw [Except.bind]
    exact (hmain h).symm ▸ hmain h
  · intro h
    simp only [normalize_game_id]
    rw [if_neg]
    simp [h]

/-- Witness for C9 at a canonical and a non-canonical input. -/
theorem normalize_game_id_spec_witness :
    normalize_game_id "SLUS_209.46" = .ok "SLUS_209.46" ∧
    normalize_game_id "bogus" = .error "game_id must match pattern like SLUS_209.46" :=
  ⟨(normalize_game_id_spec "SLUS_209.46").1 (by decide),
   (normalize_game_id_spec "bogus").2.2 (by decide)⟩

/-! ## C3: manifest upsert -/

theorem jget_setField_self (fs : List (String × Json)) (k : String) (v : Json) :
    jget (setField fs k v) k = some v := by
  induction fs with
  | nil => simp [setField, jget]
  | cons kv rest ih =>
    obtain ⟨k0, v0⟩ := kv
    by_cases h : k0 = k
    · simp [setField, h, jget]
    · simp [setField, h, jget, ih]

theorem jget_mergeFields_updated_at (fs : List (String × Json)) (a : UpsertArgs)
    (now : Int) : jget (mergeFields fs (entryFields a now)) "updated_at" = some (.num now) :=
  jget_setField_self _ _ _

theorem upsertEntries_no_match (a : UpsertArgs) (now : Int) :
    ∀ l : List Json, (∀ e ∈ l, matchesEntry a e = false) →
      upsertEntries a now l = l ++ [newEntry a now] := by
  intro l
  induction l with
  | nil => intro _; rfl
  | cons e rest ih =>
    intro h
    have he : matchesEntry a e = false := h e (by simp)
    simp only [upsertEntries, he, Bool.false_eq_true, if_false, List.cons_append,
      List.cons.injEq, true_and]
    exact ih (fun x hx => h x (by simp [hx]))

theorem upsertEntries_first_match (a : UpsertArgs) (now : Int) :
    ∀ (l1 : List Json) (e : Json) (l2 : List Json),
      (∀ x ∈ l1, matchesEntry a x = false) → matchesEntry a e = true →
      upsertEntries a now (l1 ++ e :: l2) = l1 ++ updateEntry a now e :: l2 := by
  intro l1
  induction l1 with
  | nil =>
    intro e l2 _ he
    simp only [List.nil_append, upsertEntries, he, if_true]
  | cons x xs ih =>
    intro e l2 h he
    have hx : matchesEntry a x = false := h x (by simp)
    simp only [List.cons_append, upsertEntries, hx, Bool.false_eq_true, if_false,
      List.cons.injEq, true_and]
    exact ih e l2 (fun y hy => h y (by simp [hy])) he

theorem upsertEntries_length (a : UpsertArgs) (now : Int) :
    ∀ l : List Json, (upsertEntries a now l).length =
      (if l.any (matchesEntry a) then l.length else l.length + 1) := by
  intro l
  induction l with
  | nil => rfl
  | cons e rest ih =>
    by_cases he : matchesEntry a e = true
    · simp [upsertEntries, he, List.any_cons]
    · have he' : matchesEntry a e = false := by
        cases hm : matchesEntry a e
        · rfl
        · exact absurd hm he
      simp [upsertEntries, he', List.any_cons, ih]
      split <;> omega

/-- C3: for every manifest state (entry list) and upsert call, if no entry
matches any of the four keys then exactly one entry is appended; if some
entry matches, the first match is updated in place — its `updated_at`
becomes the call time — and the count is unchanged; the count never
decreases; and the file-level `upsert_manifest_entry` is this loop applied
to the loaded manifest. -/
theorem upsert_manifest_entry_spec (a : UpsertArgs) (now : Int) (l : List Json) :
    ((∀ e ∈ l, matchesEntry a e = false) →
      upsertEntries a now l = l ++ [newEntry a now] ∧
      (upsertEntries a now l).length = l.length + 1) ∧
    (∀ (l1 : List Json) (e : Json) (l2 : List Json), l = l1 ++ e :: l2 →
      (∀ x ∈ l1, matchesEntry a x = false) → matchesEntry a e = true →
      upsertEntries a now l = l1 ++ updateEntry a now e :: l2 ∧
      (upsertEntries a now l).length = l.length ∧
      (∃ fields, updateEntry a now e = Json.obj fields ∧
        jget fields "updated_at" = some (.num now))) ∧
    l.length ≤ (upsertEntries a now l).length ∧
    (∀ file : FileRead,
      upsert_manifest_entry file a now = ⟨upsertEntries a now (load_manifest file).entries⟩) := by
  refine ⟨?_, ?_, ?_, fun _ => rfl⟩
  · intro h
    refine ⟨upsertEntries_no_match a now l h, ?_⟩
    rw [upsertEntries_no_match a now l h]
    simp
  · intro l1 e l2 hsplit h1 he
    subst hsplit
    refine ⟨upsertEntries_first_match a now l1 e l2 h1 he, ?_, ?_⟩
    · rw [upsertEntries_first_match a now l1 e l2 h1 he]
      simp
    · cases e with
      | obj fields =>
        exact ⟨mergeFields fields (entryFields a now), rfl,
          jget_mergeFields_updated_at fields a now⟩
      | null => exact absurd he (by simp [matchesEntry])
      | bool b => exact absurd he (by simp [matchesEntry])
      | num n => exact absurd he (by simp [matchesEntry])
      | str s => exact absurd he (by simp [matchesEntry])
      | arr xs => exact absurd he (by simp [matchesEntry])
  · rw [upsertEntries_length a now l]
    split <;> omega

/-- Witness for C3: upserting into the empty manifest appends exactly the
one new entry. -/
theorem upsert_manifest_entry_spec_witness :
    upsertEntries ⟨"a.iso", "A", "AAAA_000.00", "generated", "CD", "AAAA_000.00_a.iso"⟩ 0 [] =
      [] ++ [newEntry ⟨"a.iso", "A", "AAAA_000.00", "generated", "CD", "AAAA_000.00_a.iso"⟩ 0] :=
  ((upsert_manifest_entry_spec ⟨"a.iso", "A", "AAAA_000.00", "generated", "CD",
    "AAAA_000.00_a.iso"⟩ 0 []).1 (by simp)).1

/-! ## C7: destination-filename normalization -/

/-- Case-insensitive begins-with, the property the spec states. -/
def startsWithCI (p s : String) : Bool := strStartsWith (pyUpper p) (pyUpper s)

theorem pyUpper_append (a b : String) : pyUpper (a ++ b) = pyUpper a ++ pyUpper b := by
  simp only [pyUpper, String.data_append, List.map_append]
  rfl

theorem strStartsWith_of_data {p s : String} (r : List Char)
    (hd : s.data = p.data ++ r) : strStartsWith p s = true := by
  unfold strStartsWith
  rw [hd, List.take_left]
  simp

/-- C7: for an upper-case game ID (every ID the staging loop resolves is
upper case), the computed destination name begins with `"<game_id>_"`
case-insensitively, and the prefix is prepended exactly when the original
name does not already start with it case-insensitively. -/
theorem normalized_destination_name_spec (gid name : String) (h : pyUpper gid = gid) :
    startsWithCI (gid ++ "_") (normalized_destination_name gid name) = true ∧
    normalized_destination_name gid name =
      (if startsWithCI (gid ++ "_") name = true then name else gid ++ "_" ++ name) := by
  have hupp : pyUpper (gid ++ "_") = gid ++ "_" := by
    rw [pyUpper_append, h]
    rfl
  have hci : ∀ s : String,
      startsWithCI (gid ++ "_") s = strStartsWith (gid ++ "_") (pyUpper s) := by
    intro s
    unfold startsWithCI
    rw [hupp]
  have hg : gid.data.map asciiUpperChar = gid.data := by
    have := congrArg String.data h
    simpa [pyUpper] using this
  constructor
  · unfold normalized_destination_name
    by_cases hc : strStartsWith (gid ++ "_") (pyUpper name) = true
    · rw [if_pos hc, hci name]
      exact hc
    · rw [if_neg hc, hci]
      refine strStartsWith_of_data (pyUpper name).data ?_
      simp only [pyUpper, String.data_append, List.map_append, hg, List.append_assoc]
      rfl
  · unfold normalized_destination_name
    rw [hci name]

/-- Witness for C7 with the generated ID of the import scenario. -/
theorem normalized_destination_name_spec_witness :
    startsWithCI ("GAME_335.06" ++ "_")
      (normalized_destination_name "GAME_335.06" "SLUS_209.46_Game.iso") = true ∧
    normalized_destination_name "GAME_335.06" "SLUS_209.46_Game.iso" =
      (if startsWithCI ("GAME_335.06" ++ "_") "SLUS_209.46_Game.iso" = true
       then "SLUS_209.46_Game.iso" else "GAME_335.06" ++ "_" ++ "SLUS_209.46_Game.iso") :=
  normalized_destination_name_spec "GAME_335.06" "SLUS_209.46_Game.iso" (by decide)

/-! ## C10: manifest lookup by destination identity -/

/-- Whether an entry is a first-pass hit for a key: it matches by
`source_key` or `destination_key` and carries a nonempty string
`game_id` (entries matching with an unusable `game_id` are skipped by the
loop, not returned). -/
def keyHit (key : String) (e : Json) : Bool :=
  match e with
  | .obj fields =>
    (jgetStr fields "source_key" == some key ||
     jgetStr fields "destination_key" == some key) &&
    (match jgetStr fields "game_id" with
     | some g => g ≠ ""
     | none => false)
  | _ => false

theorem lookupPassKey_skip (key : String) (x : Json) (rest : List Json)
    (h : keyHit key x = false) :
    lookupPassKey key (x :: rest) = lookupPassKey key rest := by
  cases x with
  | obj fields =>
    simp only [lookupPassKey]
    by_cases hcond : key ≠ "" ∧ (jgetStr fields "source_key" == some key ||
        jgetStr fields "destination_key" == some key) = true
    · rw [if_pos hcond]
      simp only [keyHit, hcond.2, Bool.true_and] at h
      cases hg : jgetStr fields "game_id" with
      | none => rfl
      | some g =>
        rw [hg] at h
        simp only [ne_eq, decide_not, Bool.not_eq_false', decide_eq_true_eq] at h
        subst h
        simp
    · rw [if_neg hcond]
  | null => rfl
  | bool b => rfl
  | num n => rfl
  | str s => rfl
  | arr xs => rfl

theorem lookupPassKey_hit (key : String) (fields : List (String × Json))
    (rest : List Json) (g : String) (hky : key ≠ "")
    (hmatch : (jgetStr fields "source_key" == some key ||
               jgetStr fields "destination_key" == some key) = true)
    (hgid : jgetStr fields "game_id" = some g) (hg : g ≠ "") :
    lookupPassKey key (Json.obj fields :: rest) = some g := by
  simp only [lookupPassKey]
  rw [if_pos ⟨hky, hmatch⟩, hgid]
  simp [hg]

/-- C10 (amended): manifest lookup also matches by destination identity —
if the first key-pass hit of the manifest is an entry whose
`destination_key` equals the normalized stem of the queried filename and
whose `game_id` is a nonempty string, the lookup returns that entry's
`game_id` (no condition on the entry's source fields). -/
theorem lookup_destination_spec (l1 l2 : List Json) (fields : List (String × Json))
    (fn g : String) (hfn : fn ≠ "")
    (hky : normalize_lookup_key (pyPathStem fn) ≠ "")
    (hfirst : ∀ x ∈ l1, keyHit (normalize_lookup_key (pyPathStem fn)) x = false)
    (hdest : jgetStr fields "destination_key" = some (normalize_lookup_key (pyPathStem fn)))
    (hgid : jgetStr fields "game_id" = some g) (hg : g ≠ "") :
    lookup_game_id_entries (l1 ++ Json.obj fields :: l2) (some fn) none = some g := by
  have hpass : lookupPassKey (normalize_lookup_key (pyPathStem fn))
      (l1 ++ Json.obj fields :: l2) = some g := by
    induction l1 with
    | nil =>
      rw [List.nil_append]
      apply lookupPassKey_hit _ _ _ _ hky _ hgid hg
      rw [hdest]
      simp
    | cons x xs ih =>
      rw [List.cons_append, lookupPassKey_skip _ _ _ (hfirst x (by simp))]
      exact ih (fun y hy => hfirst y (by simp [hy]))
  simp [lookup_game_id_entries, hfn, hpass]

/-- Witness for C10: a single-entry manifest whose entry matches only by
destination key still resolves. -/
theorem lookup_destination_spec_witness :
    lookup_game_id_entries
      [Json.obj [("destination_key", .str "q"), ("game_id", .str "BBBB_222.22")]]
      (some "q.iso") none = some "BBBB_222.22" :=
  lookup_destination_spec [] []
    [("destination_key", .str "q"), ("game_id", .str "BBBB_222.22")]
    "q.iso" "BBBB_222.22" (by decide) (by decide) (by simp) (by rfl) (by rfl) (by decide)

/-- C10 counterexample: as literally stated ("lookup returns that entry's
game_id"), the claim fails when an earlier entry also matches the key: the
first match wins, so the destination-matching entry's id is not the one
returned. -/
theorem lookup_destination_counterexample :
    lookup_game_id_entries
      [Json.obj [("source_key", .str "q"), ("game_id", .str "AAAA_111.11")],
       Json.obj [("destination_key", .str "q"), ("game_id", .str "BBBB_222.22")]]
      (some "q.iso") none = some "AAAA_111.11" ∧
    jgetStr [("destination_key", .str "q"), ("game_id", .str "BBBB_222.22")]
      "destination_key" = some (normalize_lookup_key (pyPathStem "q.iso")) ∧
    jgetStr [("destination_key", .str "q"), ("game_id", .str "BBBB_222.22")]
      "game_id" = some "BBBB_222.22" ∧
    ("AAAA_111.11" : String) ≠ "BBBB_222.22" := by
  refine ⟨by rfl, by rfl, by rfl, by decide⟩

/-! ## C6: batch validation of uploads -/

/-- An upload passing the two per-file checks: nonempty base name and a
`.iso` extension (case-insensitive). -/
def validUpload (u : Upload) : Bool :=
  pyPathName u.filename ≠ "" &&
  pyLower (pyPathSuffix (pyPathName u.filename)) == ".iso"

theorem stageFiles_error_of_invalid :
    ∀ uploads : List Upload, (∃ u ∈ uploads, validUpload u = false) →
      ∃ e, stageFiles uploads = .error e ∧
        (e = .emptyFilename ∨ ∃ f, e = .nonIso f) := by
  intro uploads
  induction uploads with
  | nil => rintro ⟨u, hu, _⟩; exact absurd hu (by simp)
  | cons u rest ih =>
    intro hbad
    by_cases hn : pyPathName u.filename = ""
    · exact ⟨.emptyFilename, by simp [stageFiles, hn], Or.inl rfl⟩
    · by_cases hs : pyLower (pyPathSuffix (pyPathName u.filename)) = ".iso"
      · have hu : validUpload u = true := by
          simp [validUpload, hn, hs]
        have hrest : ∃ x ∈ rest, validUpload x = false := by
          rcases hbad with ⟨x, hx, hxv⟩
          rcases List.mem_cons.1 hx with rfl | hx2
          · exact absurd hu (by simp [hxv])
          · exact ⟨x, hx2, hxv⟩
        obtain ⟨e, he, hshape⟩ := ih hrest
        refine ⟨e, ?_, hshape⟩
        simp only [stageFiles]
        rw [if_neg hn, if_neg (by simp [hs]), he]
        rfl
      · refine ⟨.nonIso (pyPathName u.filename), ?_, Or.inr ⟨_, rfl⟩⟩
        simp [stageFiles, hn, hs]

/-- C6: a batch containing an upload with an empty base filename or a
non-`.iso` extension fails the whole request with a per-file validation
error; no file is copied into the target and the manifest is untouched. -/
theorem import_iso_validation_spec (t : TargetState) (overwrite : Bool)
    (uploads : List Upload) (now : Int)
    (hok : (validate_target_access t).1 = true)
    (hsc : t.structureConflict = false)
    (hbad : ∃ u ∈ uploads, validUpload u = false) :
    (import_iso t overwrite uploads now).isFileValidationFailure = true ∧
    (import_iso t overwrite uploads now).copiedFiles = [] ∧
    (import_iso t overwrite uploads now).manifestAfter =
      (load_manifest t.manifest).entries := by
  have hne : uploads.isEmpty = false := by
    rcases hbad with ⟨u, hu, _⟩
    cases uploads
    · exact absurd hu (by simp)
    · rfl
  obtain ⟨e, he, hshape⟩ := stageFiles_error_of_invalid uploads hbad
  have hrun : import_iso t overwrite uploads now =
      .failure e [] (load_manifest t.manifest).entries := by
    unfold import_iso
    rw [if_neg (by simp [hok]), if_neg (by simp [hsc]), if_neg (by simp [hne]), he]
  rw [hrun]
  refine ⟨?_, rfl, rfl⟩
  rcases hshape with rfl | ⟨f, rfl⟩ <;> rfl

/-- Witness for C6: a batch whose second file is a `.bin` upload fails with
a validation error, copying nothing. -/
theorem import_iso_validation_spec_witness :
    (import_iso ⟨true, true, true, false, 2147483648, [], .missing⟩ false
      [⟨"good.iso", 1000, none⟩, ⟨"bad.bin", 1000, none⟩] 0).isFileValidationFailure = true ∧
    (import_iso ⟨true, true, true, false, 2147483648, [], .missing⟩ false
      [⟨"good.iso", 1000, none⟩, ⟨"bad.bin", 1000, none⟩] 0).copiedFiles = [] ∧
    (import_iso ⟨true, true, true, false, 2147483648, [], .missing⟩ false
      [⟨"good.iso", 1000, none⟩, ⟨"bad.bin", 1000, none⟩] 0).manifestAfter =
      (load_manifest (.missing)).entries :=
  import_iso_validation_spec ⟨true, true, true, false, 2147483648, [], .missing⟩ false
    [⟨"good.iso", 1000, none⟩, ⟨"bad.bin", 1000, none⟩] 0 (by rfl) (by rfl)
    ⟨⟨"bad.bin", 1000, none⟩, by simp, by rfl⟩

/-! ## C1: the import scenario and ID-resolution priority -/

/-- C1 counterexample: importing `SLUS_209.46_Game.iso` (600 MiB, disc
metadata unreadable) into an empty valid target with 2 GiB free succeeds,
but the one manifest entry's `id_source` is `"generated"`, not
`"filename"`: the import route never consults the filename-embedded ID. -/
theorem import_scenario_counterexample :
    (import_iso ⟨true, true, true, false, 2147483648, [], .missing⟩ false
      [⟨"SLUS_209.46_Game.iso", 629145600, none⟩] 1700000000).isSuccessB = true ∧
    ((import_iso ⟨true, true, true, false, 2147483648, [], .missing⟩ false
      [⟨"SLUS_209.46_Game.iso", 629145600, none⟩] 1700000000).manifestAfter).map
        (entryStrField "id_source") = [some "generated"] ∧
    (some "generated" : Option String) ≠ some "filename" := by
  refine ⟨by rfl, by rfl, by decide⟩

/-- C1 (amended): the scenario import succeeds, the file lands in `CD/`,
and the manifest gains exactly one entry — with `id_source` equal to
`"generated"` (or `"iso"` when the disc metadata is readable): the
filename-embedded ID step is the highest-priority source only in
`resolve_game_id_for_target`, which the import pipeline does not call. -/
theorem import_scenario_spec :
    (import_iso ⟨true, true, true, false, 2147483648, [], .missing⟩ false
      [⟨"SLUS_209.46_Game.iso", 629145600, none⟩] 1700000000).isSuccessB = true ∧
    (import_iso ⟨true, true, true, false, 2147483648, [], .missing⟩ false
      [⟨"SLUS_209.46_Game.iso", 629145600, none⟩] 1700000000).copiedFiles =
      ["GAME_335.06_SLUS_209.46_Game.iso"] ∧
    ((import_iso ⟨true, true, true, false, 2147483648, [], .missing⟩ false
      [⟨"SLUS_209.46_Game.iso", 629145600, none⟩] 1700000000).manifestAfter).length = 1 ∧
    ((import_iso ⟨true, true, true, false, 2147483648, [], .missing⟩ false
      [⟨"SLUS_209.46_Game.iso", 629145600, none⟩] 1700000000).manifestAfter).map
        (entryStrField "id_source") = [some "generated"] ∧
    ((import_iso ⟨true, true, true, false, 2147483648, [], .missing⟩ false
      [⟨"SLUS_209.46_Game.iso", 629145600, none⟩] 1700000000).manifestAfter).map
        (entryStrField "target_folder") = [some "CD"] ∧
    ((import_iso ⟨true, true, true, false, 2147483648, [], .missing⟩ false
      [⟨"SLUS_209.46_Game.iso", 629145600, none⟩] 1700000000).manifestAfter).map
        (entryStrField "game_id") = [some "GAME_335.06"] ∧
    resolve_game_id_for_target none none (some "SLUS_209.46_Game.iso") =
      ("SLUS_209.46", false, "filename") := by
  refine ⟨by rfl, by rfl, by rfl, by rfl, by rfl, by rfl, by rfl⟩

/-! ## The multi-file copy-loop defect

The remaining-bytes recomputation reads the already-imported records under
the key `"name"`, but they are written under the key `"file"`; the model
reproduces the resulting behaviour: a batch of two valid files copies the
first file (with its manifest entry) and then fails with the generic
unexpected-error response. -/

theorem import_two_files_unexpected_error :
    (import_iso ⟨true, true, true, false, 4294967296, [], .missing⟩ false
      [⟨"a.iso", 1000, some "AAAA_000.00"⟩, ⟨"b.iso", 1000, some "BBBB_000.00"⟩]
      0).isUnexpectedError = true ∧
    (import_iso ⟨true, true, true, false, 4294967296, [], .missing⟩ false
      [⟨"a.iso", 1000, some "AAAA_000.00"⟩, ⟨"b.iso", 1000, some "BBBB_000.00"⟩]
      0).copiedFiles = ["AAAA_000.00_a.iso"] ∧
    ((import_iso ⟨true, true, true, false, 4294967296, [], .missing⟩ false
      [⟨"a.iso", 1000, some "AAAA_000.00"⟩, ⟨"b.iso", 1000, some "BBBB_000.00"⟩]
      0).manifestAfter).map (entryStrField "game_id") = [some "AAAA_000.00"] := by
  refine ⟨by rfl, by rfl, by rfl⟩
